import Mathlib

set_option maxRecDepth 100000

/-!
Verification of the fake-news-backend server (src/index.js).

The development shallowly embeds the JavaScript code: JS/JSON values become
the inductive `JSValue` (numbers as `ℚ`, which is exact for every numeric
literal the code manipulates), the Gemini model call becomes an explicit
outcome parameter `Except Unit String` (transport failure or raw reply
text), the MongoDB store becomes an explicit list of records, and each
Express handler becomes a pure function from its inputs and the outcomes of
its external calls to an `HttpResponse`.
-/

/-- Model of a JavaScript/JSON value as manipulated by the server code. -/
inductive JSValue where
  | undefined
  | null
  | bool (b : Bool)
  | num (q : ℚ)
  | str (s : String)
  | arr (elems : List JSValue)
  | obj (fields : List (String × JSValue))

/-- Whitespace characters removed by JavaScript `String.prototype.trim`
(ASCII subset; the code never produces the exotic Unicode space characters). -/
def jsWsChar (c : Char) : Bool :=
  c == ' ' || c == '\t' || c == '\n' || c == '\r' || c == '\x0b' || c == '\x0c'

/-- Trim on character lists: drop leading and trailing whitespace. -/
def trimChars (cs : List Char) : List Char :=
  ((cs.dropWhile jsWsChar).reverse.dropWhile jsWsChar).reverse

/-- JavaScript `s.trim()`. -/
def jsTrim (s : String) : String :=
  String.mk (trimChars s.data)

/-- JavaScript `Math.round`: round half toward positive infinity. -/
def jsRound (q : ℚ) : ℤ :=
  ⌊q + 1 / 2⌋

/-- Index of the first occurrence of `c`, if any. -/
def firstIdxOf (c : Char) : List Char → Option Nat
  | [] => none
  | x :: xs => if x = c then some 0 else (firstIdxOf c xs).map (· + 1)

/-- Index of the last occurrence of `c`, if any. -/
def lastIdxOf (c : Char) : List Char → Option Nat
  | [] => none
  | x :: xs =>
    match lastIdxOf c xs with
    | some j => some (j + 1)
    | none => if x = c then some 0 else none

/-- Model of `rawText.match(/\x7b[\s\S]*\x7d/)`: the regex engine finds the leftmost
match and the greedy star extends it as far as possible, so the match, when
it exists, is the span from the first opening brace through the last closing
brace; it exists exactly when some closing brace follows the first opening
brace. -/
def extractCandidate (cs : List Char) : Option (List Char) :=
  match firstIdxOf '{' cs, lastIdxOf '}' cs with
  | some i, some j => if i < j then some ((cs.drop i).take (j + 1 - i)) else none
  | _, _ => none

/-- JSON insignificant whitespace (RFC 8259: space, tab, line feed, carriage
return), as skipped by `JSON.parse`. -/
def jsonWs (c : Char) : Bool :=
  c == ' ' || c == '\t' || c == '\n' || c == '\r'

/-- Drop leading JSON whitespace. -/
def skipWs : List Char → List Char
  | [] => []
  | c :: cs => if jsonWs c then skipWs cs else c :: cs

/-- Numeric value of a decimal digit list (most significant first). -/
def digitsToNat (ds : List Char) : Nat :=
  ds.foldl (fun a c => a * 10 + (c.toNat - 48)) 0

/-- Numeric value of a hexadecimal digit, if the character is one. -/
def hexVal (c : Char) : Option Nat :=
  if '0' ≤ c ∧ c ≤ '9' then some (c.toNat - 48)
  else if 'a' ≤ c ∧ c ≤ 'f' then some (c.toNat - 87)
  else if 'A' ≤ c ∧ c ≤ 'F' then some (c.toNat - 55)
  else none

/-- Value of a four-hex-digit escape `\uXXXX`. -/
def hex4 (a b c d : Char) : Option Nat :=
  match hexVal a, hexVal b, hexVal c, hexVal d with
  | some x, some y, some z, some w => some (((x * 16 + y) * 16 + z) * 16 + w)
  | _, _, _, _ => none

/-- Body of a JSON string literal after the opening quote: accumulates the
decoded characters (reversed) and returns the string together with the rest
of the input after the closing quote.  Escape sequences follow `JSON.parse`,
including recombination of a `\uXXXX\uXXXX` surrogate pair; raw control
characters are rejected as malformed. -/
def parseStringBody : Nat → List Char → List Char → Option (String × List Char)
  | 0, _, _ => none
  | _ + 1, acc, '"' :: rest => some (String.mk acc.reverse, rest)
  | f + 1, acc, '\\' :: esc =>
    match esc with
    | '"' :: r => parseStringBody f ('"' :: acc) r
    | '\\' :: r => parseStringBody f ('\\' :: acc) r
    | '/' :: r => parseStringBody f ('/' :: acc) r
    | 'b' :: r => parseStringBody f ('\x08' :: acc) r
    | 'f' :: r => parseStringBody f ('\x0c' :: acc) r
    | 'n' :: r => parseStringBody f ('\n' :: acc) r
    | 'r' :: r => parseStringBody f ('\r' :: acc) r
    | 't' :: r => parseStringBody f ('\t' :: acc) r
    | 'u' :: a :: b :: c :: d :: r =>
      match hex4 a b c d with
      | none => none
      | some hi =>
        match r with
        | '\\' :: 'u' :: a2 :: b2 :: c2 :: d2 :: r2 =>
          match hex4 a2 b2 c2 d2 with
          | some lo =>
            if 0xd800 ≤ hi ∧ hi ≤ 0xdbff ∧ 0xdc00 ≤ lo ∧ lo ≤ 0xdfff then
              parseStringBody f
                (Char.ofNat (0x10000 + (hi - 0xd800) * 0x400 + (lo - 0xdc00)) :: acc) r2
            else parseStringBody f (Char.ofNat hi :: acc) r
          | none => parseStringBody f (Char.ofNat hi :: acc) r
        | _ => parseStringBody f (Char.ofNat hi :: acc) r
    | _ => none
  | f + 1, acc, c :: rest =>
    if c.toNat < 32 then none else parseStringBody f (c :: acc) rest
  | _ + 1, _, [] => none

/-- Fraction part of a JSON number: `.digits` or nothing. -/
def parseFrac : List Char → Option (List Char × List Char)
  | '.' :: r =>
    let p := r.span Char.isDigit
    if p.1.isEmpty then none else some p
  | cs => some ([], cs)

/-- Exponent part of a JSON number: `[eE][+-]?digits` or nothing. -/
def parseExp : List Char → Option (Int × List Char)
  | c :: r =>
    if c = 'e' ∨ c = 'E' then
      let sp : Int × List Char :=
        match r with
        | '+' :: t => (1, t)
        | '-' :: t => (-1, t)
        | _ => (1, r)
      let p := sp.2.span Char.isDigit
      if p.1.isEmpty then none else some (sp.1 * (digitsToNat p.1 : Int), p.2)
    else some (0, c :: r)
  | [] => some (0, [])

/-- Assemble the rational value of a JSON number literal. -/
def mkNum (neg : Bool) (ip : Nat) (fds : List Char) (ex : Int) : ℚ :=
  let mant : ℚ := (ip : ℚ) + (digitsToNat fds : ℚ) / ((10 : ℚ) ^ fds.length)
  (if neg then -mant else mant) * (10 : ℚ) ^ ex

/-- JSON number literal: optional minus, integer part (`0` or a nonzero-led
digit run), optional fraction, optional exponent. -/
def parseNumber (cs : List Char) : Option (JSValue × List Char) :=
  let sp : Bool × List Char :=
    match cs with
    | '-' :: r => (true, r)
    | _ => (false, cs)
  match sp.2 with
  | '0' :: r =>
    match parseFrac r with
    | none => none
    | some (fds, r2) =>
      match parseExp r2 with
      | none => none
      | some (ex, r3) => some (.num (mkNum sp.1 0 fds ex), r3)
  | c :: _ =>
    if c.isDigit then
      let p := sp.2.span Char.isDigit
      match parseFrac p.2 with
      | none => none
      | some (fds, r2) =>
        match parseExp r2 with
        | none => none
        | some (ex, r3) => some (.num (mkNum sp.1 (digitsToNat p.1) fds ex), r3)
    else none
  | [] => none

mutual

/-- Recursive-descent `JSON.parse` value parser (fuelled). -/
def parseValue : Nat → List Char → Option (JSValue × List Char)
  | 0, _ => none
  | f + 1, cs =>
    match skipWs cs with
    | 'n' :: 'u' :: 'l' :: 'l' :: r => some (.null, r)
    | 't' :: 'r' :: 'u' :: 'e' :: r => some (.bool true, r)
    | 'f' :: 'a' :: 'l' :: 's' :: 'e' :: r => some (.bool false, r)
    | '"' :: r => (parseStringBody (r.length + 1) [] r).map (fun p => (.str p.1, p.2))
    | '[' :: r =>
      match skipWs r with
      | ']' :: r2 => some (.arr [], r2)
      | _ => (parseElems f r).map (fun p => (.arr p.1, p.2))
    | '{' :: r =>
      match skipWs r with
      | '}' :: r2 => some (.obj [], r2)
      | _ => (parseMembers f r).map (fun p => (.obj p.1, p.2))
    | cs2 => parseNumber cs2

/-- One-or-more array elements, consuming the closing bracket. -/
def parseElems : Nat → List Char → Option (List JSValue × List Char)
  | 0, _ => none
  | f + 1, cs =>
    match parseValue f cs with
    | none => none
    | some (v, rest) =>
      match skipWs rest with
      | ',' :: r2 => (parseElems f r2).map (fun p => (v :: p.1, p.2))
      | ']' :: r2 => some ([v], r2)
      | _ => none

/-- One-or-more object members, consuming the closing brace. -/
def parseMembers : Nat → List Char → Option (List (String × JSValue) × List Char)
  | 0, _ => none
  | f + 1, cs =>
    match skipWs cs with
    | '"' :: r =>
      match parseStringBody (r.length + 1) [] r with
      | none => none
      | some (k, rest) =>
        match skipWs rest with
        | ':' :: r2 =>
          match parseValue f r2 with
          | none => none
          | some (v, rest2) =>
            match skipWs rest2 with
            | ',' :: r3 => (parseMembers f r3).map (fun p => ((k, v) :: p.1, p.2))
            | '}' :: r3 => some ([(k, v)], r3)
            | _ => none
        | _ => none
    | _ => none

end

/-- Model of `JSON.parse` on a character list: parse one value and require only
whitespace to remain. -/
def jsonParseChars (cs : List Char) : Option JSValue :=
  match parseValue (cs.length + 1) cs with
  | some (v, rest) => if (skipWs rest).isEmpty then some v else none
  | none => none

/-- JavaScript property access `v.key` on a parsed JSON value: objects built
by `JSON.parse` keep the last member for a duplicated key; every other value
yields `undefined` for the properties the code reads. -/
def jsGet (v : JSValue) (key : String) : JSValue :=
  match v with
  | .obj fields =>
    match fields.reverse.find? (fun p => p.1 == key) with
    | some p => p.2
    | none => .undefined
  | _ => .undefined

/-- The validated analysis record as returned by `analyzeText` on success. -/
structure AnalysisResult where
  isFake : Bool
  confidence : ℤ
  features : List String
  explanation : String
deriving Repr, DecidableEq

/-- The four validation checks of `analyzeText`, in source order, failing
fast on the first violation. -/
inductive VErr where
  /-- Thrown as `'Invalid analysis result'`: `typeof analysis.isFake !== 'boolean'`. -/
  | invalidResult
  /-- Thrown as `'Invalid confidence score'`: not a number, or below 0, or above 100. -/
  | invalidConfidence
  /-- Thrown as `'No analysis features found'`: not an array, or an empty array. -/
  | noFeatures
  /-- Thrown as `'No explanation provided'`: not a string, or trims to empty. -/
  | noExplanation
deriving Repr, DecidableEq

/-- The fields of the parsed payload once the four checks have passed. -/
structure ValidFields where
  isFake : Bool
  confidence : ℚ
  features : List JSValue
  explanation : String

/-- Strict validation block of `analyzeText` (lines 124-137 of index.js):
four field checks, in order, each `throw` modelled as an error return. -/
def validateFields (analysis : JSValue) : Except VErr ValidFields :=
  match jsGet analysis "isFake" with
  | .bool b =>
    match jsGet analysis "confidence" with
    | .num q =>
      if q < 0 ∨ 100 < q then .error .invalidConfidence
      else
        match jsGet analysis "features" with
        | .arr fs =>
          if fs.length = 0 then .error .noFeatures
          else
            match jsGet analysis "explanation" with
            | .str e =>
              if jsTrim e = "" then .error .noExplanation
              else .ok ⟨b, q, fs, e⟩
            | _ => .error .noExplanation
        | _ => .error .noFeatures
    | _ => .error .invalidConfidence
  | _ => .error .invalidResult

/-- The normalization `analysis.features.map(f => f.trim()).filter(f => f)`: trimming a
non-string element throws a TypeError (error return); empty strings are
dropped by the filter. -/
def trimFeatures : List JSValue → Except Unit (List String)
  | [] => .ok []
  | .str s :: rest =>
    match trimFeatures rest with
    | .error e => .error e
    | .ok tail =>
      let t := jsTrim s
      .ok (if t = "" then tail else t :: tail)
  | _ :: _ => .error ()

/-- Stages at which `analyzeText` can fail; every one of them lands in the
single `catch` block. -/
inductive AErr where
  /-- The model call threw, or returned no response object. -/
  | transport
  /-- Thrown as `'Could not parse AI response'`: no brace-delimited candidate found. -/
  | noCandidate
  /-- The stage where `JSON.parse` threw on the candidate substring. -/
  | badJson
  /-- One of the four validation checks threw. -/
  | validation (e : VErr)
  /-- A feature element had no `trim` method. -/
  | badFeature
deriving Repr, DecidableEq

/-- The happy path of `analyzeText` on the model outcome (`.error ()` for a
throwing model call or a missing response object, `.ok raw` for reply text
`raw`): trim, extract the brace span, `JSON.parse` it, validate, normalize. -/
def analyzeCore (m : Except Unit String) : Except AErr AnalysisResult :=
  match m with
  | .error _ => .error .transport
  | .ok raw =>
    match extractCandidate (jsTrim raw).data with
    | none => .error .noCandidate
    | some cand =>
      match jsonParseChars cand with
      | none => .error .badJson
      | some analysis =>
        match validateFields analysis with
        | .error e => .error (.validation e)
        | .ok fields =>
          match trimFeatures fields.features with
          | .error _ => .error .badFeature
          | .ok feats =>
            .ok { isFake := fields.isFake
                  confidence := jsRound fields.confidence
                  features := feats
                  explanation := jsTrim fields.explanation }

/-- The fixed degraded result returned by the `catch` block of
`analyzeText`. -/
def degradedResult : AnalysisResult :=
  { isFake := false
    confidence := 0
    features := ["Error: Content analysis failed"]
    explanation := "The analysis service is currently experiencing issues. Please wait a moment and try again." }

/-- Function `analyzeText`: the happy path wrapped in `try/catch`; any failure
collapses to the fixed degraded result. -/
def analyzeText (m : Except Unit String) : AnalysisResult :=
  match analyzeCore m with
  | .ok r => r
  | .error _ => degradedResult

/-- An HTTP response: status code plus JSON body. -/
structure HttpResponse where
  status : Nat
  body : JSValue

/-- The `res.json(analysis)` body for a validated analysis. -/
def resultToJson (r : AnalysisResult) : JSValue :=
  .obj [("isFake", .bool r.isFake),
        ("confidence", .num (r.confidence : ℚ)),
        ("features", .arr (r.features.map .str)),
        ("explanation", .str r.explanation)]

/-- Evaluation of `x?.trim()` on a request-body value: optional chaining yields
`undefined` (`none`) for `null`/`undefined`, trims a string, and throws a
TypeError (error return) on any other value, which has no `trim` method. -/
def trimOrThrow : JSValue → Except String (Option String)
  | .undefined => .ok none
  | .null => .ok none
  | .str s => .ok (some (jsTrim s))
  | _ => .error "trim is not a function"

/-- Truthiness test of the optional-chaining result: `!x?.trim()` is `true`
when the chain produced `undefined` or the trimmed string is empty. -/
def isFalsyOptStr : Option String → Bool
  | none => true
  | some s => s == ""

/-- The guard `!title?.trim() || !content?.trim()`, with JavaScript
short-circuit evaluation: `content` is only touched when the `title` operand
is falsy. -/
def requiredCheck (title content : JSValue) : Except String Bool :=
  match trimOrThrow title with
  | .error msg => .error msg
  | .ok t =>
    if isFalsyOptStr t then .ok true
    else
      match trimOrThrow content with
      | .error msg => .error msg
      | .ok c => .ok (isFalsyOptStr c)

/-- The guard `content.length < 50`: strings and arrays have a numeric
`length`; on every other value `content.length` is `undefined` and the
comparison with a number is `false`. -/
def contentTooShort : JSValue → Bool
  | .str s => s.length < 50
  | .arr xs => xs.length < 50
  | _ => false

/-- The sentinel test `analysis.features?.[0]?.startsWith('Error:')`:
an empty features list makes `features[0]` `undefined`, so the optional
chain yields `undefined`, which is falsy. -/
def analysisFailed (r : AnalysisResult) : Bool :=
  match r.features with
  | [] => false
  | f :: _ => String.mk (f.data.take 6) == "Error:"

/-- The `POST /api/analyze` handler.  `title` and `content` are the
destructured request-body values; `m` is the outcome of the model call;
`save` is the outcome of `newsEntry.save()` (its own `try/catch` logs and
falls through either way).  A thrown TypeError from the input guard reaches
the handler's top-level `catch`. -/
def analyzeHandler (title content : JSValue) (m : Except Unit String)
    (save : Except String Unit) : HttpResponse :=
  match requiredCheck title content with
  | .error msg =>
    { status := 500
      body := .obj [("error", .str "Server error. Please try again later."),
                    ("details", .str msg)] }
  | .ok true =>
    { status := 400
      body := .obj [("error", .str "Both title and content are required and cannot be empty")] }
  | .ok false =>
    if contentTooShort content then
      { status := 400
        body := .obj [("error", .str "Content is too short. Please provide more text for accurate analysis.")] }
    else
      let analysis := analyzeText m
      if analysisFailed analysis then
        { status := 500
          body := .obj [("error", .str (if analysis.explanation = "" then "Analysis failed. Please try again." else analysis.explanation))] }
      else
        match save with
        | .ok _ => { status := 200, body := resultToJson analysis }
        | .error _ => { status := 200, body := resultToJson analysis }

/-- A document of the `News` collection (schema of index.js plus MongoDB's
unique `_id`, modelled as a natural number). -/
structure StoredRecord where
  id : Nat
  title : String
  content : String
  isFake : Bool
  confidence : ℤ
  features : List String
  explanation : String
  createdAt : ℤ
deriving Repr, DecidableEq

/-- JSON serialization of a stored record as sent by `res.json(history)`. -/
def recordToJson (r : StoredRecord) : JSValue :=
  .obj [("_id", .num (r.id : ℚ)),
        ("title", .str r.title),
        ("content", .str r.content),
        ("isFake", .bool r.isFake),
        ("confidence", .num (r.confidence : ℚ)),
        ("features", .arr (r.features.map .str)),
        ("explanation", .str r.explanation),
        ("createdAt", .num (r.createdAt : ℚ))]

/-- Insert a record into a list kept in descending `createdAt` order. -/
def insertByCreatedAtDesc (r : StoredRecord) : List StoredRecord → List StoredRecord
  | [] => [r]
  | x :: xs =>
    if x.createdAt ≤ r.createdAt then r :: x :: xs
    else x :: insertByCreatedAtDesc r xs

/-- Model of `News.find().sort(\x7b createdAt: -1 \x7d)`: the collection ordered by
creation time, newest first. -/
def sortByCreatedAtDesc (db : List StoredRecord) : List StoredRecord :=
  db.foldr insertByCreatedAtDesc []

/-- The documents returned by
`News.find().sort(\x7b createdAt: -1 \x7d).limit(10)`. -/
def historyRecords (db : List StoredRecord) : List StoredRecord :=
  (sortByCreatedAtDesc db).take 10

/-- The `GET /api/history` handler.  `store` is `some db` when the query
succeeds against collection state `db`, and `none` when MongoDB is
unavailable or the query throws; the `catch` block answers `[]`. -/
def historyHandler (store : Option (List StoredRecord)) : HttpResponse :=
  match store with
  | some db => { status := 200, body := .arr ((historyRecords db).map recordToJson) }
  | none => { status := 200, body := .arr [] }

/-- Model of `News.findByIdAndDelete(id)`: MongoDB removes the document with the
given `_id` (at most one exists, `_id` being unique) and returns it, or
returns `null`. -/
def findByIdAndDelete (db : List StoredRecord) (id : Nat) :
    Option StoredRecord × List StoredRecord :=
  match db.find? (fun r => r.id == id) with
  | none => (none, db)
  | some r => (some r, db.eraseP (fun r => r.id == id))

/-- The `DELETE /api/history/:id` handler, returning the response together
with the collection state afterwards.  `storeOk := false` models
`findByIdAndDelete` throwing (store unreachable or a cast error), which
lands in the `catch` block. -/
def deleteHandler (db : List StoredRecord) (id : Nat) (storeOk : Bool) :
    HttpResponse × List StoredRecord :=
  if storeOk then
    match findByIdAndDelete db id with
    | (none, db2) => ({ status := 404, body := .obj [("error", .str "Item not found")] }, db2)
    | (some _, db2) =>
      ({ status := 200
         body := .obj [("success", .bool true), ("message", .str "Item deleted successfully")] }, db2)
  else
    ({ status := 500
       body := .obj [("error", .str "Failed to delete item"), ("details", .str "store error")] }, db)

/-- A request body field that is a string non-empty after trimming:
the values for which the first input guard passes. -/
def validField (v : JSValue) : Prop :=
  ∃ s, v = .str s ∧ jsTrim s ≠ ""

/-- A valid analysis request: both fields present as non-blank strings and
the content at least 50 characters long. -/
def validBody (title content : JSValue) : Prop :=
  validField title ∧ ∃ cs, content = .str cs ∧ jsTrim cs ≠ "" ∧ 50 ≤ cs.length

/-- A request-body value that is a string, `null`, or absent: the values on
which the input guard cannot throw. -/
def strOrNullish (v : JSValue) : Prop :=
  v = .undefined ∨ v = .null ∨ ∃ s, v = .str s

/-- A request-body value that is missing or blank: absent, `null`, or a
string that is empty after trimming. -/
def missingOrBlank (v : JSValue) : Prop :=
  v = .undefined ∨ v = .null ∨ ∃ s, v = .str s ∧ jsTrim s = ""

/-- The check `typeof x === 'boolean'`. -/
def isBoolVal : JSValue → Bool
  | .bool _ => true
  | _ => false

/-- A confidence value the validator rejects: not a number, or a number
outside `[0, 100]`. -/
def confInvalid : JSValue → Bool
  | .num q => q < 0 ∨ 100 < q
  | _ => true

/-- The check `Array.isArray(x) && x.length !== 0`. -/
def isNonEmptyArr : JSValue → Bool
  | .arr [] => false
  | .arr (_ :: _) => true
  | _ => false

/-- The check `typeof x === 'string' && x.trim()` (a string that is
non-empty after trimming). -/
def isNonBlankStr : JSValue → Bool
  | .str s => jsTrim s != ""
  | _ => false

theorem firstIdxOf_eq_none {c : Char} {cs : List Char} :
    firstIdxOf c cs = none ↔ ∀ k : Nat, cs[k]? ≠ some c := by
  induction cs with
  | nil => simp [firstIdxOf]
  | cons x xs ih =>
    by_cases hx : x = c
    · simp only [firstIdxOf, if_pos hx]
      constructor
      · intro h; cases h
      · intro h; exact absurd (by simp [hx]) (h 0)
    · simp only [firstIdxOf, if_neg hx, Option.map_eq_none', ih]
      constructor
      · intro h k
        match k with
        | 0 => simp [hx]
        | k + 1 => simpa using h k
      · intro h k
        have := h (k + 1)
        simpa using this

theorem firstIdxOf_eq_some {c : Char} {cs : List Char} {i : Nat}
    (h : firstIdxOf c cs = some i) :
    cs[i]? = some c ∧ ∀ k, k < i → cs[k]? ≠ some c := by
  induction cs generalizing i with
  | nil => cases h
  | cons x xs ih =>
    by_cases hx : x = c
    · simp only [firstIdxOf, if_pos hx] at h
      cases h
      exact ⟨by simp [hx], by omega⟩
    · simp only [firstIdxOf, if_neg hx, Option.map_eq_some'] at h
      obtain ⟨i', hi', rfl⟩ := h
      obtain ⟨h1, h2⟩ := ih hi'
      refine ⟨by simpa using h1, ?_⟩
      intro k hk
      match k with
      | 0 => simp [hx]
      | k + 1 => simpa using h2 k (by omega)

theorem firstIdxOf_of_first {c : Char} {cs : List Char} {i : Nat}
    (h1 : cs[i]? = some c) (h2 : ∀ k, k < i → cs[k]? ≠ some c) :
    firstIdxOf c cs = some i := by
  induction cs generalizing i with
  | nil => simp at h1
  | cons x xs ih =>
    match i with
    | 0 =>
      simp only [List.getElem?_cons_zero, Option.some_inj] at h1
      simp [firstIdxOf, h1]
    | i + 1 =>
      have hx : x ≠ c := by
        have := h2 0 (by omega)
        simpa using this
      simp only [List.getElem?_cons_succ] at h1
      have := ih h1 (fun k hk => by simpa using h2 (k + 1) (by omega))
      simp [firstIdxOf, if_neg hx, this]

theorem lastIdxOf_eq_none {c : Char} {cs : List Char} :
    lastIdxOf c cs = none ↔ ∀ k : Nat, cs[k]? ≠ some c := by
  induction cs with
  | nil => simp [lastIdxOf]
  | cons x xs ih =>
    simp only [lastIdxOf]
    constructor
    · intro h
      match hxs : lastIdxOf c xs with
      | some j => rw [hxs] at h; cases h
      | none =>
        rw [hxs] at h
        have hx : x ≠ c := by
          intro hc; rw [if_pos hc] at h; cases h
        intro k
        match k with
        | 0 => simp [hx]
        | k + 1 => simpa using (ih.mp hxs) k
    · intro h
      have hxs : lastIdxOf c xs = none :=
        ih.mpr (fun k => by simpa using h (k + 1))
      have hx : x ≠ c := by simpa using h 0
      rw [hxs, if_neg hx]

theorem lastIdxOf_eq_some {c : Char} {cs : List Char} {j : Nat}
    (h : lastIdxOf c cs = some j) :
    cs[j]? = some c ∧ ∀ k, j < k → cs[k]? ≠ some c := by
  induction cs generalizing j with
  | nil => cases h
  | cons x xs ih =>
    simp only [lastIdxOf] at h
    match hxs : lastIdxOf c xs with
    | some j' =>
      rw [hxs] at h
      cases h
      obtain ⟨h1, h2⟩ := ih hxs
      refine ⟨by simpa using h1, ?_⟩
      intro k hk
      match k with
      | 0 => omega
      | k + 1 => simpa using h2 k (by omega)
    | none =>
      rw [hxs] at h
      by_cases hx : x = c
      · rw [if_pos hx] at h
        cases h
        refine ⟨by simp [hx], ?_⟩
        intro k hk
        match k with
        | 0 => omega
        | k + 1 => simpa using (lastIdxOf_eq_none.mp hxs) k
      · rw [if_neg hx] at h; cases h

theorem lastIdxOf_of_last {c : Char} {cs : List Char} {j : Nat}
    (h1 : cs[j]? = some c) (h2 : ∀ k, j < k → cs[k]? ≠ some c) :
    lastIdxOf c cs = some j := by
  induction cs generalizing j with
  | nil => simp at h1
  | cons x xs ih =>
    simp only [lastIdxOf]
    match j with
    | 0 =>
      simp only [List.getElem?_cons_zero, Option.some_inj] at h1
      have hxs : lastIdxOf c xs = none :=
        lastIdxOf_eq_none.mpr (fun k => by simpa using h2 (k + 1) (by omega))
      rw [hxs, if_pos h1]
    | j + 1 =>
      simp only [List.getElem?_cons_succ] at h1
      have := ih h1 (fun k hk => by simpa using h2 (k + 1) (by omega))
      rw [this]

theorem lastIdxOf_getLast {c : Char} {cs : List Char}
    (h : cs.getLast? = some c) : lastIdxOf c cs = some (cs.length - 1) := by
  induction cs with
  | nil => cases h
  | cons x xs ih =>
    match xs, ih with
    | [], _ =>
      simp only [List.getLast?_singleton, Option.some_inj] at h
      simp [lastIdxOf, h]
    | y :: ys, ih =>
      rw [List.getLast?_cons_cons] at h
      have h2 : lastIdxOf c (x :: y :: ys) =
          match lastIdxOf c (y :: ys) with
          | some j => some (j + 1)
          | none => if x = c then some 0 else none := rfl
      rw [h2, ih h]
      show some ((y :: ys).length - 1 + 1) = some ((x :: y :: ys).length - 1)
      exact congrArg some (by simp only [List.length_cons]; omega)

theorem extractCandidate_whole {cs : List Char}
    (h1 : cs.head? = some '{') (h2 : cs.getLast? = some '}') :
    extractCandidate cs = some cs := by
  match cs, h1 with
  | x :: xs, h1 =>
    simp only [List.head?_cons, Option.some_inj] at h1
    subst h1
    have hfirst : firstIdxOf '{' (('{' : Char) :: xs) = some 0 := by
      simp [firstIdxOf]
    have hlast := lastIdxOf_getLast h2
    have hne : xs ≠ [] := by
      intro hnil
      subst hnil
      simp only [List.getLast?_singleton, Option.some_inj] at h2
      cases h2
    have hlen : (('{' : Char) :: xs).length - 1 = xs.length := by simp
    rw [hlen] at hlast
    have hpos : 0 < xs.length := List.length_pos.mpr hne
    simp only [extractCandidate, hfirst, hlast, if_pos hpos]
    congr 1
    simp only [List.drop_zero, Nat.sub_zero]
    have : xs.length + 1 - 0 = (('{' : Char) :: xs).length := by simp
    rw [List.take_of_length_le (by simp)]

theorem trimFeatures_ok_mem {fs : List JSValue} {ts : List String}
    (h : trimFeatures fs = .ok ts) : ∀ t ∈ ts, t ≠ "" := by
  induction fs generalizing ts with
  | nil =>
    simp only [trimFeatures] at h
    cases h
    intro t ht
    cases ht
  | cons x xs ih =>
    match x with
    | .str s =>
      simp only [trimFeatures] at h
      split at h
      · cases h
      · rename_i tail hxs
        split at h
        · cases h
          exact ih hxs
        · rename_i ht
          cases h
          intro t htm
          rcases List.mem_cons.mp htm with rfl | hmem
          · exact ht
          · exact ih hxs t hmem
    | .undefined | .null | .bool _ | .num _ | .arr _ | .obj _ => cases h

theorem trimFeatures_map_str {ss : List String}
    (h : ∀ s ∈ ss, jsTrim s ≠ "") :
    trimFeatures (ss.map .str) = .ok (ss.map jsTrim) := by
  induction ss with
  | nil => simp [trimFeatures]
  | cons s rest ih =>
    have hs : jsTrim s ≠ "" := h s (by simp)
    have := ih (fun x hx => h x (by simp [hx]))
    simp only [List.map_cons, trimFeatures, this, if_neg hs]

theorem jsRound_bounds {q : ℚ} (h0 : 0 ≤ q) (h1 : q ≤ 100) :
    0 ≤ jsRound q ∧ jsRound q ≤ 100 := by
  unfold jsRound
  constructor
  · exact Int.le_floor.mpr (by push_cast; linarith)
  · have : (⌊q + 1 / 2⌋ : ℤ) < 101 := by
      rw [Int.floor_lt]
      push_cast
      linarith
    omega

theorem validateFields_ok {v : JSValue} {f : ValidFields}
    (h : validateFields v = .ok f) :
    0 ≤ f.confidence ∧ f.confidence ≤ 100 ∧ f.features ≠ [] ∧
      jsTrim f.explanation ≠ "" := by
  unfold validateFields at h
  split at h
  case _ b =>
    split at h
    case _ q =>
      split at h
      · cases h
      · rename_i hq
        split at h
        case _ fs =>
          split at h
          · cases h
          · rename_i hfs
            split at h
            case _ e =>
              split at h
              · cases h
              · rename_i he
                cases h
                push_neg at hq
                refine ⟨by linarith [hq.1], hq.2, ?_, he⟩
                intro hnil
                exact hfs (by simpa using congrArg List.length hnil)
            all_goals cases h
        all_goals cases h
    all_goals cases h
  all_goals cases h

theorem analyzeCore_ok_inv {m : Except Unit String} {r : AnalysisResult}
    (h : analyzeCore m = .ok r) :
    0 ≤ r.confidence ∧ r.confidence ≤ 100 ∧
      (∀ f ∈ r.features, f ≠ "") ∧ r.explanation ≠ "" := by
  match m with
  | .error e => simp [analyzeCore] at h
  | .ok raw =>
    simp only [analyzeCore] at h
    split at h
    · cases h
    · split at h
      · cases h
      · split at h
        · cases h
        · rename_i fields hvf
          split at h
          · cases h
          · rename_i feats htf
            cases h
            obtain ⟨h0, h1, _, he⟩ := validateFields_ok hvf
            obtain ⟨hr0, hr1⟩ := jsRound_bounds h0 h1
            exact ⟨hr0, hr1, trimFeatures_ok_mem htf, he⟩

theorem requiredCheck_of_validBody {t c : JSValue} (h : validBody t c) :
    requiredCheck t c = .ok false ∧ contentTooShort c = false := by
  obtain ⟨⟨ts, rfl, hts⟩, cs, rfl, hcs, hlen⟩ := h
  constructor
  · simp only [requiredCheck, trimOrThrow, isFalsyOptStr]
    rw [if_neg (by simp [hts])]
    simp [hcs]
  · simp only [contentTooShort]
    simp [Nat.not_lt.mpr hlen]

theorem degraded_failed : analysisFailed degradedResult = true := by decide

theorem analyzeHandler_200 {t c : JSValue} {m : Except Unit String}
    {save : Except String Unit}
    (hreq : requiredCheck t c = .ok false)
    (hlen : contentTooShort c = false)
    (hstat : (analyzeHandler t c m save).status = 200) :
    ∃ r, analyzeCore m = .ok r ∧
      analyzeHandler t c m save = ⟨200, resultToJson r⟩ := by
  unfold analyzeHandler at hstat ⊢
  rw [hreq] at hstat ⊢
  simp only [hlen, Bool.false_eq_true, if_false] at hstat ⊢
  match hA : analyzeCore m with
  | .error e =>
    have hdeg : analyzeText m = degradedResult := by
      simp [analyzeText, hA]
    rw [hdeg, degraded_failed] at hstat
    simp at hstat
  | .ok r =>
    have hok : analyzeText m = r := by simp [analyzeText, hA]
    rw [hok] at hstat ⊢
    match hF : analysisFailed r with
    | true => rw [hF] at hstat; simp at hstat
    | false =>
      simp only [Bool.false_eq_true, if_false]
      match save with
      | .ok _ => exact ⟨r, rfl, rfl⟩
      | .error _ => exact ⟨r, rfl, rfl⟩

theorem mem_insertByCreatedAtDesc {b r : StoredRecord} {l : List StoredRecord} :
    b ∈ insertByCreatedAtDesc r l ↔ b = r ∨ b ∈ l := by
  induction l with
  | nil => simp [insertByCreatedAtDesc]
  | cons x xs ih =>
    simp only [insertByCreatedAtDesc]
    by_cases hx : x.createdAt ≤ r.createdAt
    · rw [if_pos hx]
      simp [or_comm, or_assoc, or_left_comm]
    · rw [if_neg hx]
      simp only [List.mem_cons, ih]
      tauto

theorem insertByCreatedAtDesc_pairwise {r : StoredRecord} {l : List StoredRecord}
    (h : l.Pairwise (fun a b => b.createdAt ≤ a.createdAt)) :
    (insertByCreatedAtDesc r l).Pairwise (fun a b => b.createdAt ≤ a.createdAt) := by
  induction l with
  | nil => simp [insertByCreatedAtDesc]
  | cons x xs ih =>
    simp only [insertByCreatedAtDesc]
    rcases List.pairwise_cons.mp h with ⟨hx_all, hxs⟩
    by_cases hx : x.createdAt ≤ r.createdAt
    · rw [if_pos hx]
      refine List.pairwise_cons.mpr ⟨?_, h⟩
      intro b hb
      rcases List.mem_cons.mp hb with rfl | hmem
      · exact hx
      · exact le_trans (hx_all b hmem) hx
    · rw [if_neg hx]
      refine List.pairwise_cons.mpr ⟨?_, ih hxs⟩
      intro b hb
      rcases mem_insertByCreatedAtDesc.mp hb with rfl | hmem
      · exact le_of_not_le hx
      · exact hx_all b hmem

theorem sortByCreatedAtDesc_pairwise (db : List StoredRecord) :
    (sortByCreatedAtDesc db).Pairwise (fun a b => b.createdAt ≤ a.createdAt) := by
  induction db with
  | nil => simp [sortByCreatedAtDesc]
  | cons x xs ih => exact insertByCreatedAtDesc_pairwise ih

theorem historyRecords_sorted (db : List StoredRecord) :
    (historyRecords db).Pairwise (fun a b => b.createdAt ≤ a.createdAt) :=
  (sortByCreatedAtDesc_pairwise db).sublist (List.take_sublist _ _)

theorem historyRecords_length (db : List StoredRecord) :
    (historyRecords db).length ≤ 10 := by
  unfold historyRecords
  exact List.length_take_le _ _

theorem eraseP_id_not_mem {db : List StoredRecord} {i : Nat}
    (hnodup : (db.map StoredRecord.id).Nodup) :
    ∀ x ∈ db.eraseP (fun r => r.id == i), x.id ≠ i := by
  induction db with
  | nil => simp [List.eraseP]
  | cons h t ih =>
    rw [List.map_cons, List.nodup_cons] at hnodup
    by_cases hh : h.id = i
    · have hb : (h.id == i) = true := by simp [hh]
      rw [List.eraseP_cons, hb, cond_true]
      intro x hx hxi
      exact hnodup.1 (by rw [hh, ← hxi]; exact List.mem_map_of_mem _ hx)
    · have hb : (h.id == i) = false := by simp [hh]
      rw [List.eraseP_cons, hb, cond_false]
      intro x hx
      rcases List.mem_cons.mp hx with rfl | hmem
      · exact hh
      · exact ih hnodup.2 x hmem

theorem extractCandidate_eq_none_iff {cs : List Char} :
    extractCandidate cs = none ↔
      ¬ ∃ i j : Nat, i < j ∧ cs[i]? = some '{' ∧ cs[j]? = some '}' := by
  unfold extractCandidate
  match hf : firstIdxOf '{' cs, hl : lastIdxOf '}' cs with
  | none, none =>
    refine ⟨fun _ => ?_, fun _ => rfl⟩
    rintro ⟨i, j, hij, hi, hj⟩
    exact (firstIdxOf_eq_none.mp hf) i hi
  | none, some j =>
    refine ⟨fun _ => ?_, fun _ => rfl⟩
    rintro ⟨i, j', hij, hi, hj⟩
    exact (firstIdxOf_eq_none.mp hf) i hi
  | some i, none =>
    refine ⟨fun _ => ?_, fun _ => rfl⟩
    rintro ⟨i', j', hij, hi, hj⟩
    exact (lastIdxOf_eq_none.mp hl) j' hj
  | some i, some j =>
    show (if i < j then some ((cs.drop i).take (j + 1 - i)) else none) = none ↔ _
    by_cases hij : i < j
    · rw [if_pos hij]
      constructor
      · intro h; cases h
      · intro h
        exact absurd ⟨i, j, hij, (firstIdxOf_eq_some hf).1, (lastIdxOf_eq_some hl).1⟩ h
    · rw [if_neg hij]
      refine ⟨fun _ => ?_, fun _ => rfl⟩
      rintro ⟨i', j', hij', hi', hj'⟩
      have hi_le : i ≤ i' := by
        by_contra hlt
        exact (firstIdxOf_eq_some hf).2 i' (by omega) hi'
      have hj_le : j' ≤ j := by
        by_contra hlt
        exact (lastIdxOf_eq_some hl).2 j' (by omega) hj'
      omega

theorem extractCandidate_span {cs : List Char} {i j : Nat}
    (hi : cs[i]? = some '{') (hif : ∀ k, k < i → cs[k]? ≠ some '{')
    (hj : cs[j]? = some '}') (hjl : ∀ k, j < k → cs[k]? ≠ some '}')
    (hij : i < j) :
    extractCandidate cs = some ((cs.drop i).take (j + 1 - i)) := by
  unfold extractCandidate
  rw [firstIdxOf_of_first hi hif, lastIdxOf_of_last hj hjl]
  show (if i < j then some ((cs.drop i).take (j + 1 - i)) else none) = _
  rw [if_pos hij]

theorem analyzeCore_noCandidate_iff {raw : String} :
    analyzeCore (.ok raw) = .error .noCandidate ↔
      extractCandidate (jsTrim raw).data = none := by
  constructor
  · intro h
    simp only [analyzeCore] at h
    split at h
    · rename_i heq; exact heq
    · exfalso
      split at h
      · simp at h
      · split at h
        · simp at h
        · split at h
          · simp at h
          · simp at h
  · intro h
    simp only [analyzeCore]
    rw [h]

/-- C4: the extractor takes as candidate the span from the first opening
brace through the last closing brace of the trimmed model text, and
`analyzeText` fails at the extraction stage exactly when no such span
exists, i.e. when no closing brace occurs strictly after the first opening
brace. -/
theorem c4_extraction_selects_first_to_last_brace_span :
    ∀ raw : String,
      (analyzeCore (.ok raw) = .error .noCandidate ↔
        ¬ ∃ i j : Nat, i < j ∧ (jsTrim raw).data[i]? = some '{' ∧
          (jsTrim raw).data[j]? = some '}') ∧
      (∀ i j : Nat,
        (jsTrim raw).data[i]? = some '{' →
        (∀ k, k < i → (jsTrim raw).data[k]? ≠ some '{') →
        (jsTrim raw).data[j]? = some '}' →
        (∀ k, j < k → (jsTrim raw).data[k]? ≠ some '}') →
        i < j →
        extractCandidate (jsTrim raw).data =
          some (((jsTrim raw).data.drop i).take (j + 1 - i))) := by
  intro raw
  exact ⟨analyzeCore_noCandidate_iff.trans extractCandidate_eq_none_iff,
    fun i j hi hif hj hjl hij => extractCandidate_span hi hif hj hjl hij⟩

/-- Witness for C4: on `"ab\x7bcd\x7de\x7bf\x7dg"` the candidate runs from
the first opening brace (index 2) to the last closing brace (index 9), and
a brace-free reply fails extraction. -/
theorem c4_witness :
    extractCandidate (jsTrim "ab\x7bcd\x7de\x7bf\x7dg").data = some ("\x7bcd\x7de\x7bf\x7d".data) ∧
    analyzeCore (.ok "no braces here") = .error .noCandidate :=
  ⟨(c4_extraction_selects_first_to_last_brace_span "ab\x7bcd\x7de\x7bf\x7dg").2 2 9
      (by decide) (by intro k hk; interval_cases k <;> decide)
      (by decide) (by intro k hk
                      have hlen : (jsTrim "ab\x7bcd\x7de\x7bf\x7dg").data.length = 11 := by decide
                      by_cases h9 : k < 11
                      · interval_cases k
                        decide
                      · rw [List.getElem?_eq_none (by rw [hlen]; omega)]
                        simp)
      (by decide),
   (c4_extraction_selects_first_to_last_brace_span "no braces here").1.mpr
      (by rintro ⟨i, j, hij, hi, hj⟩
          have hlen : (jsTrim "no braces here").data.length = 14 := by decide
          by_cases hin : i < 14
          · revert hi; interval_cases i <;> decide
          · rw [List.getElem?_eq_none (by rw [hlen]; omega)] at hi
            cases hi)⟩

/-- C2: every failure of the model call, extraction, parse, or validation
stage makes `analyzeText` return exactly the fixed degraded sentinel, and
the handler then answers 500 with exactly the generic error body, never any
upstream error text. -/
theorem c2_failure_returns_fixed_sentinel_and_500 :
    ∀ (t c : JSValue) (m : Except Unit String) (save : Except String Unit)
      (e : AErr),
      analyzeCore m = .error e →
      analyzeText m = degradedResult ∧
      (requiredCheck t c = .ok false → contentTooShort c = false →
        analyzeHandler t c m save =
          ⟨500, .obj [("error",
            .str "The analysis service is currently experiencing issues. Please wait a moment and try again.")]⟩) := by
  intro t c m save e hA
  have hdeg : analyzeText m = degradedResult := by simp [analyzeText, hA]
  refine ⟨hdeg, fun hreq hlen => ?_⟩
  unfold analyzeHandler
  rw [hreq]
  simp only [hlen, Bool.false_eq_true, if_false]
  rw [hdeg, degraded_failed]
  rfl

/-- Witness for C2: a transport failure on an otherwise valid request
produces the degraded sentinel and the generic 500 body. -/
theorem c2_witness :
    analyzeText (.error ()) = degradedResult ∧
    analyzeHandler (.str "Title") (.str "This content string is definitely at least fifty characters long.")
        (.error ()) (.ok ()) =
      ⟨500, .obj [("error",
        .str "The analysis service is currently experiencing issues. Please wait a moment and try again.")]⟩ := by
  have h := c2_failure_returns_fixed_sentinel_and_500 (.str "Title")
    (.str "This content string is definitely at least fifty characters long.")
    (.error ()) (.ok ()) .transport rfl
  exact ⟨h.1, h.2 (by with_unfolding_all rfl) (by decide)⟩

/-- C3: the validator checks the parsed payload field by field, in the
order isFake, confidence, features, explanation, failing fast with the
first violated check; and a validation failure collapses to the degraded
sentinel rather than crashing the request. -/
theorem c3_validator_field_order_fail_fast :
    (∀ v, isBoolVal (jsGet v "isFake") = false →
       validateFields v = .error .invalidResult) ∧
    (∀ v b, jsGet v "isFake" = .bool b →
       confInvalid (jsGet v "confidence") = true →
       validateFields v = .error .invalidConfidence) ∧
    (∀ v b q, jsGet v "isFake" = .bool b → jsGet v "confidence" = .num q →
       0 ≤ q → q ≤ 100 → isNonEmptyArr (jsGet v "features") = false →
       validateFields v = .error .noFeatures) ∧
    (∀ v b q fs, jsGet v "isFake" = .bool b → jsGet v "confidence" = .num q →
       0 ≤ q → q ≤ 100 → jsGet v "features" = .arr fs → fs ≠ [] →
       isNonBlankStr (jsGet v "explanation") = false →
       validateFields v = .error .noExplanation) ∧
    (∀ (m : Except Unit String) (e : VErr),
       analyzeCore m = .error (.validation e) → analyzeText m = degradedResult) := by
  refine ⟨?_, ?_, ?_, ?_, ?_⟩
  · intro v h
    unfold validateFields
    match hv : jsGet v "isFake" with
    | .bool b => rw [hv] at h; simp [isBoolVal] at h
    | .undefined => rfl
    | .null => rfl
    | .num _ => rfl
    | .str _ => rfl
    | .arr _ => rfl
    | .obj _ => rfl
  · intro v b hb h
    simp only [validateFields, hb]
    match hc : jsGet v "confidence" with
    | .num q =>
      rw [hc] at h
      simp only [confInvalid] at h
      dsimp only
      rw [if_pos (of_decide_eq_true h)]
    | .undefined => rfl
    | .null => rfl
    | .bool _ => rfl
    | .str _ => rfl
    | .arr _ => rfl
    | .obj _ => rfl
  · intro v b q hb hc h0 h1 h
    simp only [validateFields, hb, hc]
    rw [if_neg (not_or.mpr ⟨not_lt.mpr h0, not_lt.mpr h1⟩)]
    match hf : jsGet v "features" with
    | .arr fs =>
      rw [hf] at h
      match fs with
      | [] => simp
      | x :: xs => simp [isNonEmptyArr] at h
    | .undefined => rfl
    | .null => rfl
    | .bool _ => rfl
    | .num _ => rfl
    | .str _ => rfl
    | .obj _ => rfl
  · intro v b q fs hb hc h0 h1 hf hfs h
    simp only [validateFields, hb, hc, hf]
    rw [if_neg (not_or.mpr ⟨not_lt.mpr h0, not_lt.mpr h1⟩),
      if_neg (fun hnil => hfs (List.length_eq_zero.mp hnil))]
    match he : jsGet v "explanation" with
    | .str e =>
      rw [he] at h
      simp only [isNonBlankStr, bne_eq_false_iff_eq] at h
      dsimp only
      rw [if_pos h]
    | .undefined => rfl
    | .null => rfl
    | .bool _ => rfl
    | .num _ => rfl
    | .arr _ => rfl
    | .obj _ => rfl
  · intro m e h
    simp [analyzeText, h]

/-- Witness for C3: each rejected shape (non-boolean isFake, confidence -1
and 101, empty features, whitespace-only explanation) yields the matching
validation failure, and a validation failure inside the pipeline returns
the degraded sentinel. -/
theorem c3_witness :
    validateFields (.obj [("isFake", .str "yes")]) = .error .invalidResult ∧
    validateFields (.obj [("isFake", .bool true), ("confidence", .num (-1))]) =
      .error .invalidConfidence ∧
    validateFields (.obj [("isFake", .bool true), ("confidence", .num 101)]) =
      .error .invalidConfidence ∧
    validateFields (.obj [("isFake", .bool false), ("confidence", .num 50),
      ("features", .arr [])]) = .error .noFeatures ∧
    validateFields (.obj [("isFake", .bool false), ("confidence", .num 50),
      ("features", .arr [.str "f"]), ("explanation", .str "  ")]) =
      .error .noExplanation ∧
    analyzeText (.ok "\x7b\"isFake\": 5\x7d") = degradedResult :=
  ⟨c3_validator_field_order_fail_fast.1 _ (by with_unfolding_all decide),
   c3_validator_field_order_fail_fast.2.1 _ true (by with_unfolding_all rfl)
     (by with_unfolding_all decide),
   c3_validator_field_order_fail_fast.2.1 _ true (by with_unfolding_all rfl)
     (by with_unfolding_all decide),
   c3_validator_field_order_fail_fast.2.2.1 _ false 50 (by with_unfolding_all rfl)
     (by with_unfolding_all rfl) (by with_unfolding_all decide)
     (by with_unfolding_all decide) (by with_unfolding_all decide),
   c3_validator_field_order_fail_fast.2.2.2.1 _ false 50 [.str "f"]
     (by with_unfolding_all rfl) (by with_unfolding_all rfl)
     (by with_unfolding_all decide) (by with_unfolding_all decide)
     (by with_unfolding_all rfl) (by simp)
     (by with_unfolding_all decide),
   c3_validator_field_order_fail_fast.2.2.2.2 _ .invalidResult
     (by with_unfolding_all rfl)⟩

/-- C7: when the analysis is genuine, the HTTP response is the same whether
the persistence save succeeds or fails, and (for a well-formed request) it
is the 200 response carrying the analysis body. -/
theorem c7_store_error_never_changes_response :
    ∀ (t c : JSValue) (m : Except Unit String) (s1 s2 : Except String Unit)
      (r : AnalysisResult),
      analyzeCore m = .ok r → analysisFailed r = false →
      analyzeHandler t c m s1 = analyzeHandler t c m s2 ∧
      (requiredCheck t c = .ok false → contentTooShort c = false →
        analyzeHandler t c m s1 = ⟨200, resultToJson r⟩) := by
  intro t c m s1 s2 r hA hgen
  have hok : analyzeText m = r := by simp [analyzeText, hA]
  constructor
  · unfold analyzeHandler
    match hrq : requiredCheck t c with
    | .error msg => rfl
    | .ok true => rfl
    | .ok false =>
      match hts : contentTooShort c with
      | true => rfl
      | false =>
        simp only [Bool.false_eq_true, if_false]
        rw [hok, hgen]
        simp only [Bool.false_eq_true, if_false]
        match s1, s2 with
        | .ok _, .ok _ => rfl
        | .ok _, .error _ => rfl
        | .error _, .ok _ => rfl
        | .error _, .error _ => rfl
  · intro hreq hlen
    unfold analyzeHandler
    rw [hreq]
    simp only [hlen, Bool.false_eq_true, if_false]
    rw [hok, hgen]
    simp only [Bool.false_eq_true, if_false]
    match s1 with
    | .ok _ => rfl
    | .error _ => rfl

/-- Witness for C7: a concrete genuine analysis gets the same 200 response
under a successful save and under a store failure. -/
theorem c7_witness :
    analyzeHandler (.str "Title")
        (.str "This content string is definitely at least fifty characters long.")
        (.ok "\x7b\"isFake\": true, \"confidence\": 80, \"features\": [\"a\"], \"explanation\": \"b\"\x7d")
        (.ok ()) =
      analyzeHandler (.str "Title")
        (.str "This content string is definitely at least fifty characters long.")
        (.ok "\x7b\"isFake\": true, \"confidence\": 80, \"features\": [\"a\"], \"explanation\": \"b\"\x7d")
        (.error "store down") ∧
    analyzeHandler (.str "Title")
        (.str "This content string is definitely at least fifty characters long.")
        (.ok "\x7b\"isFake\": true, \"confidence\": 80, \"features\": [\"a\"], \"explanation\": \"b\"\x7d")
        (.ok ()) =
      ⟨200, resultToJson ⟨true, 80, ["a"], "b"⟩⟩ := by
  have h := c7_store_error_never_changes_response (.str "Title")
    (.str "This content string is definitely at least fifty characters long.")
    (.ok "\x7b\"isFake\": true, \"confidence\": 80, \"features\": [\"a\"], \"explanation\": \"b\"\x7d")
    (.ok ()) (.error "store down") ⟨true, 80, ["a"], "b"⟩
    (by with_unfolding_all rfl) (by decide)
  exact ⟨h.1, h.2 (by with_unfolding_all rfl) (by decide)⟩

/-- C1 (amended): for every valid request, a 200 response carries exactly
the validated analysis result; its confidence is an integer in [0, 100],
every element of its features list is a non-empty string, and its
explanation is non-empty.  (The features list itself may be empty: the
post-validation trim-and-filter step can discard every element, which the
code does not re-check.) -/
theorem c1_amended_success_body_invariants :
    ∀ (t c : JSValue) (m : Except Unit String) (save : Except String Unit),
      validBody t c →
      (analyzeHandler t c m save).status = 200 →
      ∃ r, analyzeCore m = .ok r ∧
        (analyzeHandler t c m save).body = resultToJson r ∧
        0 ≤ r.confidence ∧ r.confidence ≤ 100 ∧
        (∀ f ∈ r.features, f ≠ "") ∧ r.explanation ≠ "" := by
  intro t c m save hv hstat
  obtain ⟨hreq, hlen⟩ := requiredCheck_of_validBody hv
  obtain ⟨r, hA, heq⟩ := analyzeHandler_200 hreq hlen hstat
  obtain ⟨h0, h1, hf, he⟩ := analyzeCore_ok_inv hA
  exact ⟨r, hA, by rw [heq], h0, h1, hf, he⟩

/-- Witness for C1: a valid request with a well-formed model reply is
answered 200 with the validated body. -/
theorem c1_witness :
    ∃ r, analyzeCore (.ok "\x7b\"isFake\": false, \"confidence\": 92, \"features\": [\"Verified by two sources\"], \"explanation\": \"Claims match public records.\"\x7d") = .ok r ∧
      (analyzeHandler (.str "Local Bakery Wins Award")
        (.str "Sixty characters of filler content for the analysis call ok")
        (.ok "\x7b\"isFake\": false, \"confidence\": 92, \"features\": [\"Verified by two sources\"], \"explanation\": \"Claims match public records.\"\x7d")
        (.ok ())).body = resultToJson r ∧
      0 ≤ r.confidence ∧ r.confidence ≤ 100 ∧
      (∀ f ∈ r.features, f ≠ "") ∧ r.explanation ≠ "" :=
  c1_amended_success_body_invariants (.str "Local Bakery Wins Award")
    (.str "Sixty characters of filler content for the analysis call ok")
    (.ok "\x7b\"isFake\": false, \"confidence\": 92, \"features\": [\"Verified by two sources\"], \"explanation\": \"Claims match public records.\"\x7d")
    (.ok ())
    ⟨⟨"Local Bakery Wins Award", rfl, by decide⟩,
     "Sixty characters of filler content for the analysis call ok", rfl,
     by decide, by decide⟩
    (by with_unfolding_all rfl)

/-- Counterexample for C1 as stated: a valid request whose model reply has
the single feature `" "` passes validation (the list is non-empty), but the
normalization step empties the list, so the 200 response body carries an
empty features list, violating the section-3 invariant that features is
non-empty. -/
theorem c1_counterexample :
    validBody (.str "Local Bakery Wins Award")
      (.str "Sixty characters of filler content for the analysis call ok") ∧
    (analyzeHandler (.str "Local Bakery Wins Award")
      (.str "Sixty characters of filler content for the analysis call ok")
      (.ok "\x7b\"isFake\": false, \"confidence\": 50, \"features\": [\" \"], \"explanation\": \"ok\"\x7d")
      (.ok ())).status = 200 ∧
    jsGet (analyzeHandler (.str "Local Bakery Wins Award")
      (.str "Sixty characters of filler content for the analysis call ok")
      (.ok "\x7b\"isFake\": false, \"confidence\": 50, \"features\": [\" \"], \"explanation\": \"ok\"\x7d")
      (.ok ())).body "features" = .arr [] :=
  ⟨⟨⟨"Local Bakery Wins Award", rfl, by decide⟩,
    "Sixty characters of filler content for the analysis call ok", rfl,
    by decide, by decide⟩,
   by with_unfolding_all rfl, by with_unfolding_all rfl⟩

/-- C5 (amended): feeding the pipeline a raw text that is exactly a JSON
object with the four schema fields holding valid values — boolean isFake,
numeric confidence in [0, 100], a non-empty list of string features each
non-empty after trimming, and a string explanation non-empty after
trimming — yields a genuine result equal to the input fields up to
whitespace trimming of the strings and rounding of the confidence. -/
theorem c5_amended_round_trip :
    ∀ (raw : String) (analysis : JSValue) (b : Bool) (q : ℚ)
      (fs : List String) (e : String),
      (jsTrim raw).data.head? = some '{' →
      (jsTrim raw).data.getLast? = some '}' →
      jsonParseChars (jsTrim raw).data = some analysis →
      jsGet analysis "isFake" = .bool b →
      jsGet analysis "confidence" = .num q → 0 ≤ q → q ≤ 100 →
      jsGet analysis "features" = .arr (fs.map .str) → fs ≠ [] →
      (∀ f ∈ fs, jsTrim f ≠ "") →
      jsGet analysis "explanation" = .str e → jsTrim e ≠ "" →
      analyzeCore (.ok raw) = .ok ⟨b, jsRound q, fs.map jsTrim, jsTrim e⟩ := by
  intro raw analysis b q fs e hh hl hp hb hc h0 h1 hf hfs hftrim he hetrim
  have hvf : validateFields analysis = .ok ⟨b, q, fs.map .str, e⟩ := by
    simp only [validateFields, hb, hc, hf, he]
    rw [if_neg (not_or.mpr ⟨not_lt.mpr h0, not_lt.mpr h1⟩),
      if_neg (fun hn => hfs (by simpa using hn)), if_neg hetrim]
  simp only [analyzeCore]
  rw [extractCandidate_whole hh hl]
  dsimp only
  rw [hp]
  dsimp only
  rw [hvf]
  dsimp only
  rw [trimFeatures_map_str hftrim]

/-- Witness for C5: the spec's own example reply round-trips to the exact
example result. -/
theorem c5_witness :
    analyzeCore (.ok "\x7b\"isFake\": false, \"confidence\": 92, \"features\": [\"Verified by two sources\"], \"explanation\": \"Claims match public records.\"\x7d") =
      .ok ⟨false, jsRound 92, ["Verified by two sources"].map jsTrim,
        jsTrim "Claims match public records."⟩ :=
  c5_amended_round_trip
    "\x7b\"isFake\": false, \"confidence\": 92, \"features\": [\"Verified by two sources\"], \"explanation\": \"Claims match public records.\"\x7d"
    (.obj [("isFake", .bool false), ("confidence", .num 92),
      ("features", .arr [.str "Verified by two sources"]),
      ("explanation", .str "Claims match public records.")])
    false 92 ["Verified by two sources"] "Claims match public records."
    (by decide) (by decide) (by with_unfolding_all rfl)
    (by with_unfolding_all rfl) (by with_unfolding_all rfl)
    (by with_unfolding_all decide) (by with_unfolding_all decide)
    (by with_unfolding_all rfl) (by simp) (by decide)
    (by with_unfolding_all rfl) (by decide)

/-- Counterexample for C5 as stated: the feature `" "` and the explanation
`"  "` are non-empty strings, so the claim's hypotheses allow them, yet the
first is dropped by normalization (the result equals neither the input nor
its elementwise trim, and is not a genuine AnalysisResult since its
features list is empty), and the second makes validation fail outright. -/
theorem c5_counterexample :
    (" " : String) ≠ "" ∧ ("  " : String) ≠ "" ∧
    analyzeText (.ok "\x7b\"isFake\": false, \"confidence\": 50, \"features\": [\" \"], \"explanation\": \"ok\"\x7d") =
      ⟨false, 50, [], "ok"⟩ ∧
    List.map jsTrim [" "] ≠ [] ∧
    analyzeText (.ok "\x7b\"isFake\": true, \"confidence\": 50, \"features\": [\"x\"], \"explanation\": \"  \"\x7d") =
      degradedResult :=
  ⟨by decide, by decide, by with_unfolding_all rfl, by decide,
   by with_unfolding_all rfl⟩

theorem requiredCheck_blank {t c : JSValue} (ht : strOrNullish t)
    (hc : strOrNullish c) (hb : missingOrBlank t ∨ missingOrBlank c) :
    requiredCheck t c = .ok true := by
  rcases ht with rfl | rfl | ⟨ts, rfl⟩
  · simp [requiredCheck, trimOrThrow, isFalsyOptStr]
  · simp [requiredCheck, trimOrThrow, isFalsyOptStr]
  · by_cases hts : jsTrim ts = ""
    · simp [requiredCheck, trimOrThrow, isFalsyOptStr, hts]
    · have hcb : missingOrBlank c := by
        rcases hb with hbt | hbc
        · exfalso
          rcases hbt with h | h | ⟨s, hs, hsb⟩
          · cases h
          · cases h
          · cases hs; exact hts hsb
        · exact hbc
      rcases hcb with rfl | rfl | ⟨cs, rfl, hcsb⟩
      · simp [requiredCheck, trimOrThrow, isFalsyOptStr, hts]
      · simp [requiredCheck, trimOrThrow, isFalsyOptStr, hts]
      · simp [requiredCheck, trimOrThrow, isFalsyOptStr, hts, hcsb]

/-- C6 (amended): provided each of title and content is a string, `null`,
or absent — any other truthy value makes the input guard throw, see C10 —
the handler answers 400 whenever title or content is missing or blank
after trimming, and 400 whenever content is a string shorter than 50
characters; in all of these cases the analysis pipeline is never invoked
(the response does not depend on the model or store outcome). -/
theorem c6_amended_short_or_missing_input_400 :
    ∀ (t c : JSValue) (m1 m2 : Except Unit String) (s1 s2 : Except String Unit),
      strOrNullish t → strOrNullish c →
      ((missingOrBlank t ∨ missingOrBlank c) →
        analyzeHandler t c m1 s1 =
          ⟨400, .obj [("error",
            .str "Both title and content are required and cannot be empty")]⟩) ∧
      (∀ cs, c = .str cs → cs.length < 50 →
        (analyzeHandler t c m1 s1).status = 400 ∧
        analyzeHandler t c m1 s1 = analyzeHandler t c m2 s2) := by
  intro t c m1 m2 s1 s2 ht hc
  constructor
  · intro hblank
    have hreq := requiredCheck_blank ht hc hblank
    unfold analyzeHandler
    rw [hreq]
  · intro cs hceq hlen
    subst hceq
    have hshort : contentTooShort (.str cs) = true := by
      simp [contentTooShort, hlen]
    rcases ht with rfl | rfl | ⟨ts, rfl⟩
    · have hreq : requiredCheck .undefined (.str cs) = .ok true := by
        simp [requiredCheck, trimOrThrow, isFalsyOptStr]
      constructor
      · unfold analyzeHandler; rw [hreq]
      · unfold analyzeHandler; rw [hreq]
    · have hreq : requiredCheck .null (.str cs) = .ok true := by
        simp [requiredCheck, trimOrThrow, isFalsyOptStr]
      constructor
      · unfold analyzeHandler; rw [hreq]
      · unfold analyzeHandler; rw [hreq]
    · by_cases hts : jsTrim ts = ""
      · have hreq : requiredCheck (.str ts) (.str cs) = .ok true := by
          simp [requiredCheck, trimOrThrow, isFalsyOptStr, hts]
        constructor
        · unfold analyzeHandler; rw [hreq]
        · unfold analyzeHandler; rw [hreq]
      · by_cases hcs : jsTrim cs = ""
        · have hreq : requiredCheck (.str ts) (.str cs) = .ok true := by
            simp [requiredCheck, trimOrThrow, isFalsyOptStr, hts, hcs]
          constructor
          · unfold analyzeHandler; rw [hreq]
          · unfold analyzeHandler; rw [hreq]
        · have hreq : requiredCheck (.str ts) (.str cs) = .ok false := by
            simp [requiredCheck, trimOrThrow, isFalsyOptStr, hts, hcs]
          constructor
          · unfold analyzeHandler
            rw [hreq]
            dsimp only
            rw [hshort]
            rfl
          · unfold analyzeHandler
            rw [hreq]
            dsimp only
            rw [hshort]
            rfl

/-- Witness for C6 (amended): a missing title gives the 400
required-fields response, and a valid title with 5-character content gives
a 400 independent of the model outcome. -/
theorem c6_witness :
    analyzeHandler .undefined (.str "some content") (.error ()) (.ok ()) =
      ⟨400, .obj [("error",
        .str "Both title and content are required and cannot be empty")]⟩ ∧
    (analyzeHandler (.str "Title") (.str "short") (.error ()) (.ok ())).status = 400 ∧
    analyzeHandler (.str "Title") (.str "short") (.error ()) (.ok ()) =
      analyzeHandler (.str "Title") (.str "short")
        (.ok "\x7b\"isFake\": true, \"confidence\": 1, \"features\": [\"x\"], \"explanation\": \"y\"\x7d")
        (.error "down") :=
  ⟨(c6_amended_short_or_missing_input_400 .undefined (.str "some content")
      (.error ()) (.error ()) (.ok ()) (.ok ())
      (Or.inl rfl) (Or.inr (Or.inr ⟨"some content", rfl⟩))).1 (Or.inl (Or.inl rfl)),
   ((c6_amended_short_or_missing_input_400 (.str "Title") (.str "short")
      (.error ())
      (.ok "\x7b\"isFake\": true, \"confidence\": 1, \"features\": [\"x\"], \"explanation\": \"y\"\x7d")
      (.ok ()) (.error "down")
      (Or.inr (Or.inr ⟨"Title", rfl⟩)) (Or.inr (Or.inr ⟨"short", rfl⟩))).2
      "short" rfl (by decide)).1,
   ((c6_amended_short_or_missing_input_400 (.str "Title") (.str "short")
      (.error ())
      (.ok "\x7b\"isFake\": true, \"confidence\": 1, \"features\": [\"x\"], \"explanation\": \"y\"\x7d")
      (.ok ()) (.error "down")
      (Or.inr (Or.inr ⟨"Title", rfl⟩)) (Or.inr (Or.inr ⟨"short", rfl⟩))).2
      "short" rfl (by decide)).2⟩

/-- Counterexample for C6 as stated: the content "short" has length below
50, yet with the number 5 as title the response is 500 (the input guard
throws a TypeError caught by the top-level catch), not 400. -/
theorem c6_counterexample :
    ("short" : String).length < 50 ∧
    (analyzeHandler (.num 5) (.str "short") (.error ()) (.ok ())).status = 500 :=
  ⟨by decide, by with_unfolding_all rfl⟩

/-- C8: the history endpoint always answers 200; on a successful query the
body is the collection sorted newest-first and truncated to at most 10
records, and on a failed or unavailable store it is the empty array. -/
theorem c8_history_always_200_sorted_limited :
    ∀ store : Option (List StoredRecord),
      (historyHandler store).status = 200 ∧
      (∀ db, store = some db →
        (historyHandler store).body = .arr ((historyRecords db).map recordToJson) ∧
        (historyRecords db).length ≤ 10 ∧
        (historyRecords db).Pairwise (fun a b => b.createdAt ≤ a.createdAt)) ∧
      (store = none → (historyHandler store).body = .arr []) := by
  intro store
  refine ⟨?_, ?_, ?_⟩
  · cases store <;> rfl
  · rintro db rfl
    exact ⟨rfl, historyRecords_length db, historyRecords_sorted db⟩
  · rintro rfl
    rfl

/-- Witness for C8: a concrete two-record store is listed sorted and
bounded, and an unavailable store yields the empty array. -/
theorem c8_witness :
    (historyRecords [⟨1, "t1", "c1", false, 10, ["f"], "e", 5⟩,
      ⟨2, "t2", "c2", true, 20, ["g"], "h", 9⟩]).length ≤ 10 ∧
    (historyRecords [⟨1, "t1", "c1", false, 10, ["f"], "e", 5⟩,
      ⟨2, "t2", "c2", true, 20, ["g"], "h", 9⟩]).Pairwise
      (fun a b => b.createdAt ≤ a.createdAt) ∧
    (historyHandler none).body = .arr [] :=
  ⟨((c8_history_always_200_sorted_limited
      (some [⟨1, "t1", "c1", false, 10, ["f"], "e", 5⟩,
        ⟨2, "t2", "c2", true, 20, ["g"], "h", 9⟩])).2.1 _ rfl).2.1,
   ((c8_history_always_200_sorted_limited
      (some [⟨1, "t1", "c1", false, 10, ["f"], "e", 5⟩,
        ⟨2, "t2", "c2", true, 20, ["g"], "h", 9⟩])).2.1 _ rfl).2.2,
   (c8_history_always_200_sorted_limited none).2.2 rfl⟩

theorem mem_sortByCreatedAtDesc {b : StoredRecord} {db : List StoredRecord} :
    b ∈ sortByCreatedAtDesc db ↔ b ∈ db := by
  induction db with
  | nil => simp [sortByCreatedAtDesc]
  | cons x xs ih =>
    show b ∈ insertByCreatedAtDesc x (sortByCreatedAtDesc xs) ↔ _
    rw [mem_insertByCreatedAtDesc, ih]
    simp [eq_comm]

theorem mem_historyRecords {b : StoredRecord} {db : List StoredRecord}
    (h : b ∈ historyRecords db) : b ∈ db :=
  mem_sortByCreatedAtDesc.mp ((List.take_sublist _ _).subset h)

/-- C9: deleting a nonexistent id answers 404 with the item-not-found body
and leaves the collection unchanged; deleting an existing id answers 200
with the success body and removes the id from the collection — so it is
absent from subsequent history listings (ids being unique in the store); a
store failure answers 500. -/
theorem c9_delete_endpoint_semantics :
    ∀ (db : List StoredRecord) (i : Nat),
      ((∀ r ∈ db, r.id ≠ i) →
        deleteHandler db i true =
          (⟨404, .obj [("error", .str "Item not found")]⟩, db)) ∧
      ((db.map StoredRecord.id).Nodup → (∃ r ∈ db, r.id = i) →
        (deleteHandler db i true).1.status = 200 ∧
        (deleteHandler db i true).1.body =
          .obj [("success", .bool true), ("message", .str "Item deleted successfully")] ∧
        (∀ r ∈ (deleteHandler db i true).2, r.id ≠ i) ∧
        (∀ r ∈ historyRecords (deleteHandler db i true).2, r.id ≠ i)) ∧
      (deleteHandler db i false).1.status = 500 := by
  intro db i
  refine ⟨?_, ?_, ?_⟩
  · intro hno
    have hf : db.find? (fun r => r.id == i) = none := by
      rw [List.find?_eq_none]
      intro x hx
      simpa using hno x hx
    simp [deleteHandler, findByIdAndDelete, hf]
  · intro hnodup hex
    have hf : ∃ r', db.find? (fun r => r.id == i) = some r' := by
      obtain ⟨r, hr, hri⟩ := hex
      match hfind : db.find? (fun r => r.id == i) with
      | some r' => exact ⟨r', hfind⟩
      | none =>
        exact absurd (by simp [hri]) (List.find?_eq_none.mp hfind r hr)
    obtain ⟨r', hf⟩ := hf
    have habs : ∀ r ∈ (deleteHandler db i true).2, r.id ≠ i := by
      intro r hr
      have h2 : (deleteHandler db i true).2 = db.eraseP (fun r => r.id == i) := by
        simp [deleteHandler, findByIdAndDelete, hf]
      rw [h2] at hr
      exact eraseP_id_not_mem hnodup r hr
    exact ⟨by simp [deleteHandler, findByIdAndDelete, hf],
      by simp [deleteHandler, findByIdAndDelete, hf], habs,
      fun r hr => habs r (mem_historyRecords hr)⟩
  · rfl

/-- Witness for C9: on a concrete two-record store, deleting id 7 is a 404
that leaves the store unchanged, deleting id 1 succeeds and removes it, and
a store failure is a 500. -/
theorem c9_witness :
    deleteHandler [⟨1, "t1", "c1", false, 10, ["f"], "e", 5⟩] 7 true =
      (⟨404, .obj [("error", .str "Item not found")]⟩,
        [⟨1, "t1", "c1", false, 10, ["f"], "e", 5⟩]) ∧
    (deleteHandler [⟨1, "t1", "c1", false, 10, ["f"], "e", 5⟩,
      ⟨2, "t2", "c2", true, 20, ["g"], "h", 9⟩] 1 true).1.status = 200 ∧
    (∀ r ∈ (deleteHandler [⟨1, "t1", "c1", false, 10, ["f"], "e", 5⟩,
      ⟨2, "t2", "c2", true, 20, ["g"], "h", 9⟩] 1 true).2, r.id ≠ 1) ∧
    (deleteHandler [⟨1, "t1", "c1", false, 10, ["f"], "e", 5⟩] 1 false).1.status = 500 :=
  ⟨(c9_delete_endpoint_semantics [⟨1, "t1", "c1", false, 10, ["f"], "e", 5⟩] 7).1
      (by decide),
   ((c9_delete_endpoint_semantics [⟨1, "t1", "c1", false, 10, ["f"], "e", 5⟩,
      ⟨2, "t2", "c2", true, 20, ["g"], "h", 9⟩] 1).2.1 (by decide)
      ⟨⟨1, "t1", "c1", false, 10, ["f"], "e", 5⟩, by simp, rfl⟩).1,
   ((c9_delete_endpoint_semantics [⟨1, "t1", "c1", false, 10, ["f"], "e", 5⟩,
      ⟨2, "t2", "c2", true, 20, ["g"], "h", 9⟩] 1).2.1 (by decide)
      ⟨⟨1, "t1", "c1", false, 10, ["f"], "e", 5⟩, by simp, rfl⟩).2.2.1,
   (c9_delete_endpoint_semantics [⟨1, "t1", "c1", false, 10, ["f"], "e", 5⟩] 1).2.2⟩

/-- C10: a request body whose title or content is present and truthy but
not a string — here content is the number 12345 — is answered 500 with the
generic server-error body carrying a details field, not 400: the `trim`
call throws a TypeError that is caught by the handler's top-level catch. -/
theorem c10_nonstring_truthy_field_gives_500 :
    (analyzeHandler (.str "Valid Title") (.num 12345) (.error ()) (.ok ())).status = 500 ∧
    (analyzeHandler (.str "Valid Title") (.num 12345) (.error ()) (.ok ())).status ≠ 400 ∧
    jsGet (analyzeHandler (.str "Valid Title") (.num 12345) (.error ()) (.ok ())).body
      "error" = .str "Server error. Please try again later." ∧
    jsGet (analyzeHandler (.str "Valid Title") (.num 12345) (.error ()) (.ok ())).body
      "details" ≠ .undefined := by
  refine ⟨by with_unfolding_all rfl, by with_unfolding_all decide,
    by with_unfolding_all rfl, ?_⟩
  intro h
  have hd : jsGet (analyzeHandler (.str "Valid Title") (.num 12345)
      (.error ()) (.ok ())).body "details" = .str "trim is not a function" := by
    with_unfolding_all rfl
  rw [hd] at h
  simp at h
